import Mathlib

/-! Verification of the go-json streaming scanner.

A shallow embedding of the scanner source (`scan.go`: the `Scanner` type,
its byte-driven state machine, buffer refill, string cooking, `Skip`)
together with the `Bool` branch of `DecodeValue` from `decode.go`.

Modelling conventions:
* bytes are `Nat` values (always < 256 on real inputs), Go byte slices are
  `List Nat`;
* the `io.Reader` is a queue of byte chunks: each `Read` hands over (up to
  the free space) the next chunk with a `nil` error, and an empty queue
  reports `io.EOF` with zero bytes, exactly like `strings.Reader`;
* the mutually referential Go `stateFunc` values are an inductive `Tag`
  dispatched by `stepB`; a Go `state(s, b)` call returning `nil` is
  `(s, none)`;
* machine integers are `Int`/`Nat` (Go ints never overflow on the sizes
  involved); the Go loops are fuel-indexed recursions whose fuel is chosen
  large enough that it is never exhausted on the executions of interest
  (each iteration strictly consumes input). -/

namespace GoJson

abbrev Byte := Nat

/-- Kind constants (scan.go `Kind` iota).  Go's `Kind` is an `int` and the
scanner stores `-1` as a "no token" sentinel at the top of `Scan`, so kinds
are modelled as `Int`. -/
def kNull : Int := 0

def kBool : Int := 1

def kString : Int := 2

def kNumber : Int := 3

def kArray : Int := 4

def kObject : Int := 5

def kEnd : Int := 6

/-- The `expect` description constants of scan.go, as an enumeration (the
Go strings only serve to distinguish the syntax-error sites). -/
inductive Expect where
  | expectWhitespace
  | expectValue
  | expectArrayCommaOrClose
  | expectObjectKeyOrClose
  | expectObjectColon
  | expectObjectCommaOrClose
  | expectObjectKey
  | expectNu
  | expectNul
  | expectNull
  | expectTr
  | expectTru
  | expectTrue
  | expectFa
  | expectFal
  | expectFals
  | expectFalse
  | expectStringNotControl
  | expectStringEscape
  | expectStringUnicodeEscape1
  | expectStringUnicodeEscape2
  | expectStringUnicodeEscape3
  | expectStringUnicodeEscape4
  | expectNumberNeg
  | expectNumberFrac
  | expectNumberExp
  | expectNumberExpDigit
  deriving DecidableEq, Repr

/-- Errors held in `Scanner.err`: `io.EOF`, `io.ErrUnexpectedEOF`, and the
`*SyntaxError{Pos, b, expect}` of scan.go. `Option JError` plays the role
of Go's `error` (with `none` = `nil`). -/
inductive JError where
  | eof
  | unexpectedEOF
  | synErr (pos : Nat) (b : Byte) (expect : Expect)
  deriving DecidableEq, Repr

/-- One entry of `Scanner.data`: `struct { pos, end int; cook bool }`.
The Go field `end` is called `stop` here (`end` is a Lean keyword). -/
structure Region where
  pos : Int
  stop : Int
  cook : Bool
  deriving DecidableEq

/-- The Go `stateFunc` values, one constructor per state method of scan.go. -/
inductive Tag where
  | stateStart
  | stateEnd
  | stateValue
  | stateArrayElementOrClose
  | stateArrayCommaOrClose
  | stateObjectKeyOrClose
  | stateObjectColon
  | stateObjectCommaOrClose
  | stateObjectKey
  | stateNu
  | stateNul
  | stateNull
  | stateTr
  | stateTru
  | stateTrue
  | stateFa
  | stateFal
  | stateFals
  | stateFalse
  | stateString
  | stateStringEscape
  | stateStringUnicodeEscape1
  | stateStringUnicodeEscape2
  | stateStringUnicodeEscape3
  | stateStringUnicodeEscape4
  | stateNumberNeg
  | stateNumberDigits
  | stateNumberDotOrExp
  | stateNumberFrac
  | stateNumberFracDigits
  | stateNumberExp
  | stateNumberExpDigit
  | stateNumberExpDigits
  deriving DecidableEq

/-- The scanner state (scan.go `Scanner`).  `states` is the parse stack
with the Go slice's last element (the active state) at the list head, so
`top`/`push`/`pop` are head-replace/cons/tail.  `buf`/`bufCap` model the Go
slice `buf` and its capacity.  `dataName`/`dataValue` are `data[nameData]`
and `data[valueData]`.  `rd` is the chunked byte source.  `multiDoc` is the
multi-document flag, modelled from the spec (not present in scan.go). -/
structure Scanner where
  states : List Tag
  pos : Nat
  buf : List Byte
  bufCap : Nat
  kind : Int
  eofOK : Bool
  err : Option JError
  cook : Bool
  isKey : Bool
  boolValue : Bool
  dataName : Region
  dataValue : Region
  multiDoc : Bool
  rd : List (List Byte)
  deriving DecidableEq

/-- Go slice expression `l[a:b]` for `Int` offsets (length `b - a`). -/
def listSlice (l : List Byte) (a b : Int) : List Byte :=
  (l.drop a.toNat).take (b - a).toNat

/-- Go slice expression `l[a:b]` for `Nat` offsets. -/
def listSliceN (l : List Byte) (a b : Nat) : List Byte :=
  (l.drop a).take (b - a)

/-- The effective end offset of a region: an open region (`end = -1`)
extends to the cursor (this is the `if end < 0 { end = s.pos }` idiom used
twice inside `fill`). -/
def endOf (r : Region) (cur : Nat) : Int :=
  if r.stop < 0 then (cur : Int) else r.stop

def isWhiteSpace (b : Byte) : Bool :=
  b == 32 || b == 10 || b == 13 || b == 9

def isHexDigit (b : Byte) : Bool :=
  (decide (48 ≤ b) && decide (b ≤ 57)) ||
  (decide (97 ≤ b) && decide (b ≤ 102)) ||
  (decide (65 ≤ b) && decide (b ≤ 70))

def isDecimalDigit (b : Byte) : Bool :=
  decide (48 ≤ b) && decide (b ≤ 57)

/-- scan.go `parseHex`: fold the hex digits, ignoring any non-hex byte
(the Go switch has no default case, leaving `r` unchanged). -/
def parseHex (p : List Byte) : Nat :=
  p.foldl
    (fun r b =>
      if 48 ≤ b ∧ b ≤ 57 then r * 16 + (b - 48)
      else if 97 ≤ b ∧ b ≤ 102 then r * 16 + (b - 97 + 10)
      else if 65 ≤ b ∧ b ≤ 70 then r * 16 + (b - 65 + 10)
      else r)
    0

/-- `(*Scanner).syntaxError`: record the error and return the `nil` state. -/
def synError (s : Scanner) (b : Byte) (e : Expect) : Scanner × Option Tag :=
  ({ s with err := some (.synErr s.pos b e) }, none)

/-- `(*Scanner).finishNumber`: numbers have no terminator byte of their
own, so the terminating byte is handed back (`s.pos -= 1`); the byte loop
in `Scan` immediately re-adds 1. `s.pos ≥ 1` whenever this runs (at least
one number byte was consumed), so the `Nat` subtraction is exact. -/
def finishNumber (s : Scanner) : Scanner × Option Tag :=
  ({ s with kind := kNumber,
            dataValue := { s.dataValue with stop := (s.pos : Int) },
            pos := s.pos - 1 }, none)

def stateValue (s : Scanner) (b : Byte) : Scanner × Option Tag :=
  if isWhiteSpace b then (s, some .stateValue)
  else if b = 34 then
    ({ s with isKey := false, cook := false,
              dataValue := { s.dataValue with pos := (s.pos : Int) + 1, stop := -1 } },
     some .stateString)
  else if b = 45 then
    ({ s with dataValue := { s.dataValue with pos := (s.pos : Int), stop := -1 } },
     some .stateNumberNeg)
  else if b = 48 then
    ({ s with dataValue := { s.dataValue with pos := (s.pos : Int), stop := -1 } },
     some .stateNumberDotOrExp)
  else if 49 ≤ b ∧ b ≤ 57 then
    ({ s with dataValue := { s.dataValue with pos := (s.pos : Int), stop := -1 } },
     some .stateNumberDigits)
  else if b = 116 then (s, some .stateTr)
  else if b = 102 then (s, some .stateFa)
  else if b = 110 then (s, some .stateNu)
  else if b = 91 then
    ({ s with states := .stateArrayElementOrClose :: s.states, kind := kArray }, none)
  else if b = 123 then
    ({ s with states := .stateObjectKeyOrClose :: s.states, kind := kObject }, none)
  else synError s b .expectValue

/-- `(*Scanner).stateStart`: `s.top(stateEnd); return s.stateValue(b)`. -/
def stateStart (s : Scanner) (b : Byte) : Scanner × Option Tag :=
  stateValue { s with states := .stateEnd :: s.states.tail } b

/-- `(*Scanner).stateEnd`.  The `multiDoc` branch is Modelled from the
spec: `AllowMultple` (used by scan_test.go and decode.go but absent from
the scanner source) relaxes the terminal state so that after a complete
top-level value the start of a new top-level value is accepted instead of
being trailing garbage.  With `multiDoc = false` this is exactly the
source's `stateEnd`. -/
def stateEnd (s : Scanner) (b : Byte) : Scanner × Option Tag :=
  if isWhiteSpace b then ({ s with eofOK := true }, some .stateEnd)
  else if s.multiDoc then stateValue s b
  else synError s b .expectWhitespace

def stateArrayElementOrClose (s : Scanner) (b : Byte) : Scanner × Option Tag :=
  if isWhiteSpace b then (s, some .stateArrayElementOrClose)
  else if b = 93 then ({ s with states := s.states.tail, kind := kEnd }, none)
  else stateValue { s with states := .stateArrayCommaOrClose :: s.states.tail } b

def stateArrayCommaOrClose (s : Scanner) (b : Byte) : Scanner × Option Tag :=
  if isWhiteSpace b then (s, some .stateArrayCommaOrClose)
  else if b = 44 then (s, some .stateValue)
  else if b = 93 then ({ s with states := s.states.tail, kind := kEnd }, none)
  else synError s b .expectArrayCommaOrClose

def stateObjectKeyOrClose (s : Scanner) (b : Byte) : Scanner × Option Tag :=
  if isWhiteSpace b then (s, some .stateObjectKeyOrClose)
  else if b = 125 then ({ s with states := s.states.tail, kind := kEnd }, none)
  else if b = 34 then
    ({ s with states := .stateObjectCommaOrClose :: s.states.tail,
              cook := false, isKey := true,
              dataName := { s.dataName with pos := (s.pos : Int) + 1, stop := -1 } },
     some .stateString)
  else synError s b .expectObjectKeyOrClose

def stateObjectColon (s : Scanner) (b : Byte) : Scanner × Option Tag :=
  if isWhiteSpace b then (s, some .stateObjectColon)
  else if b = 58 then (s, some .stateValue)
  else synError s b .expectObjectColon

def stateObjectCommaOrClose (s : Scanner) (b : Byte) : Scanner × Option Tag :=
  if isWhiteSpace b then (s, some .stateObjectCommaOrClose)
  else if b = 44 then (s, some .stateObjectKey)
  else if b = 125 then ({ s with states := s.states.tail, kind := kEnd }, none)
  else synError s b .expectObjectCommaOrClose

def stateObjectKey (s : Scanner) (b : Byte) : Scanner × Option Tag :=
  if isWhiteSpace b then (s, some .stateObjectKey)
  else if b = 34 then
    ({ s with cook := false, isKey := true,
              dataName := { s.dataName with pos := (s.pos : Int) + 1, stop := -1 } },
     some .stateString)
  else synError s b .expectObjectKey

def stateNu (s : Scanner) (b : Byte) : Scanner × Option Tag :=
  if b = 117 then (s, some .stateNul) else synError s b .expectNu

def stateNul (s : Scanner) (b : Byte) : Scanner × Option Tag :=
  if b = 108 then (s, some .stateNull) else synError s b .expectNul

def stateNull (s : Scanner) (b : Byte) : Scanner × Option Tag :=
  if b = 108 then ({ s with kind := kNull }, none) else synError s b .expectNull

def stateTr (s : Scanner) (b : Byte) : Scanner × Option Tag :=
  if b = 114 then (s, some .stateTru) else synError s b .expectTr

def stateTru (s : Scanner) (b : Byte) : Scanner × Option Tag :=
  if b = 117 then (s, some .stateTrue) else synError s b .expectTru

def stateTrue (s : Scanner) (b : Byte) : Scanner × Option Tag :=
  if b = 101 then ({ s with kind := kBool, boolValue := true }, none)
  else synError s b .expectTrue

def stateFa (s : Scanner) (b : Byte) : Scanner × Option Tag :=
  if b = 97 then (s, some .stateFal) else synError s b .expectFa

def stateFal (s : Scanner) (b : Byte) : Scanner × Option Tag :=
  if b = 108 then (s, some .stateFals) else synError s b .expectFal

def stateFals (s : Scanner) (b : Byte) : Scanner × Option Tag :=
  if b = 115 then (s, some .stateFalse) else synError s b .expectFals

def stateFalse (s : Scanner) (b : Byte) : Scanner × Option Tag :=
  if b = 101 then ({ s with kind := kBool, boolValue := false }, none)
  else synError s b .expectFalse

def stateString (s : Scanner) (b : Byte) : Scanner × Option Tag :=
  if b = 34 then
    if s.isKey then
      ({ s with dataName := { s.dataName with stop := (s.pos : Int), cook := s.cook } },
       some .stateObjectColon)
    else
      ({ s with dataValue := { s.dataValue with stop := (s.pos : Int), cook := s.cook },
                kind := kString }, none)
  else if b = 92 then ({ s with cook := true }, some .stateStringEscape)
  else if b < 32 then synError s b .expectStringNotControl
  else if b < 128 then (s, some .stateString)
  else ({ s with cook := true }, some .stateString)

def stateStringEscape (s : Scanner) (b : Byte) : Scanner × Option Tag :=
  if b = 34 ∨ b = 92 ∨ b = 98 ∨ b = 102 ∨ b = 110 ∨ b = 114 ∨ b = 116 ∨ b = 47 then
    (s, some .stateString)
  else if b = 117 then (s, some .stateStringUnicodeEscape1)
  else synError s b .expectStringEscape

def stateStringUnicodeEscape1 (s : Scanner) (b : Byte) : Scanner × Option Tag :=
  if isHexDigit b then (s, some .stateStringUnicodeEscape2)
  else synError s b .expectStringUnicodeEscape1

def stateStringUnicodeEscape2 (s : Scanner) (b : Byte) : Scanner × Option Tag :=
  if isHexDigit b then (s, some .stateStringUnicodeEscape3)
  else synError s b .expectStringUnicodeEscape2

def stateStringUnicodeEscape3 (s : Scanner) (b : Byte) : Scanner × Option Tag :=
  if isHexDigit b then (s, some .stateStringUnicodeEscape4)
  else synError s b .expectStringUnicodeEscape3

def stateStringUnicodeEscape4 (s : Scanner) (b : Byte) : Scanner × Option Tag :=
  if isHexDigit b then (s, some .stateString)
  else synError s b .expectStringUnicodeEscape4

def stateNumberNeg (s : Scanner) (b : Byte) : Scanner × Option Tag :=
  if b = 48 then (s, some .stateNumberDotOrExp)
  else if 49 ≤ b ∧ b ≤ 57 then (s, some .stateNumberDigits)
  else synError s b .expectNumberNeg

def stateNumberDotOrExp (s : Scanner) (b : Byte) : Scanner × Option Tag :=
  if b = 46 then (s, some .stateNumberFrac)
  else if b = 101 ∨ b = 69 then (s, some .stateNumberExp)
  else finishNumber s

def stateNumberDigits (s : Scanner) (b : Byte) : Scanner × Option Tag :=
  if isDecimalDigit b then (s, some .stateNumberDigits)
  else stateNumberDotOrExp s b

def stateNumberFrac (s : Scanner) (b : Byte) : Scanner × Option Tag :=
  if isDecimalDigit b then (s, some .stateNumberFracDigits)
  else synError s b .expectNumberFrac

def stateNumberFracDigits (s : Scanner) (b : Byte) : Scanner × Option Tag :=
  if isDecimalDigit b then (s, some .stateNumberFracDigits)
  else if b = 101 ∨ b = 69 then (s, some .stateNumberExp)
  else finishNumber s

def stateNumberExp (s : Scanner) (b : Byte) : Scanner × Option Tag :=
  if b = 43 ∨ b = 45 then (s, some .stateNumberExpDigit)
  else if isDecimalDigit b then (s, some .stateNumberExpDigits)
  else synError s b .expectNumberExp

def stateNumberExpDigit (s : Scanner) (b : Byte) : Scanner × Option Tag :=
  if isDecimalDigit b then (s, some .stateNumberExpDigits)
  else synError s b .expectNumberExpDigit

def stateNumberExpDigits (s : Scanner) (b : Byte) : Scanner × Option Tag :=
  if isDecimalDigit b then (s, some .stateNumberExpDigits)
  else finishNumber s

/-- Dispatch a `stateFunc` value on the next byte: `state(s, b)`. -/
def stepB (s : Scanner) (t : Tag) (b : Byte) : Scanner × Option Tag :=
  match t with
  | .stateStart => stateStart s b
  | .stateEnd => stateEnd s b
  | .stateValue => stateValue s b
  | .stateArrayElementOrClose => stateArrayElementOrClose s b
  | .stateArrayCommaOrClose => stateArrayCommaOrClose s b
  | .stateObjectKeyOrClose => stateObjectKeyOrClose s b
  | .stateObjectColon => stateObjectColon s b
  | .stateObjectCommaOrClose => stateObjectCommaOrClose s b
  | .stateObjectKey => stateObjectKey s b
  | .stateNu => stateNu s b
  | .stateNul => stateNul s b
  | .stateNull => stateNull s b
  | .stateTr => stateTr s b
  | .stateTru => stateTru s b
  | .stateTrue => stateTrue s b
  | .stateFa => stateFa s b
  | .stateFal => stateFal s b
  | .stateFals => stateFals s b
  | .stateFalse => stateFalse s b
  | .stateString => stateString s b
  | .stateStringEscape => stateStringEscape s b
  | .stateStringUnicodeEscape1 => stateStringUnicodeEscape1 s b
  | .stateStringUnicodeEscape2 => stateStringUnicodeEscape2 s b
  | .stateStringUnicodeEscape3 => stateStringUnicodeEscape3 s b
  | .stateStringUnicodeEscape4 => stateStringUnicodeEscape4 s b
  | .stateNumberNeg => stateNumberNeg s b
  | .stateNumberDigits => stateNumberDigits s b
  | .stateNumberDotOrExp => stateNumberDotOrExp s b
  | .stateNumberFrac => stateNumberFrac s b
  | .stateNumberFracDigits => stateNumberFracDigits s b
  | .stateNumberExp => stateNumberExp s b
  | .stateNumberExpDigit => stateNumberExpDigit s b
  | .stateNumberExpDigits => stateNumberExpDigits s b

/-- One `Read` of the chunked byte source into `space` free bytes:
next chunk (split if it exceeds the space) with a `nil` error, or
`(0, io.EOF)` when the source is exhausted. -/
def readChunk (rd : List (List Byte)) (space : Nat) :
    List Byte × Option JError × List (List Byte) :=
  match rd with
  | [] => ([], some .eof, [])
  | c :: rest =>
      if c.length ≤ space then (c, none, rest)
      else (c.take space, none, c.drop space :: rest)

/-- The bytes currently denoted by a live region (`s.buf[pos:end]`, with an
open `end` extended to the cursor), `[]` for a dead region. -/
def regionBytes (buf : List Byte) (cur : Nat) (r : Region) : List Byte :=
  if 0 ≤ r.pos then listSlice buf r.pos (endOf r cur) else []

/-- Relocate a live region to start at `base` (dead regions untouched);
an open region keeps its degenerate `end = -1`, a closed one gets
`base + (end - pos)` — the offset rewriting of `fill`'s copy loop. -/
def relocRegion (r : Region) (base : Int) : Region :=
  if 0 ≤ r.pos then
    { pos := base,
      stop := if r.stop < 0 then r.stop else base + (r.stop - r.pos),
      cook := r.cook }
  else r

/-- `(*Scanner).fill`: count the live bytes of both pending regions, grow
the buffer when free capacity is under `minRead = 512`, relocate both
regions contiguously to the front, then issue one read into the remaining
capacity, recording the read's error verbatim.  `fill` only runs with the
cursor at the end of the buffer, the regions in (name, value) order and in
bounds; Go's in-place `copy` calls then produce exactly the byte content
built functionally here (regions first, then the freshly read bytes), and
`s.buf = buf[:n+nn]` trims the rest. -/
def fill (s : Scanner) : Scanner :=
  let n : Int :=
    (if 0 ≤ s.dataName.pos then endOf s.dataName s.pos - s.dataName.pos else 0) +
    (if 0 ≤ s.dataValue.pos then endOf s.dataValue s.pos - s.dataValue.pos else 0)
  let cap2 : Nat := if (s.bufCap : Int) - n < 512 then 2 * s.bufCap + 512 else s.bufCap
  let aBytes := regionBytes s.buf s.pos s.dataName
  let bBytes := regionBytes s.buf s.pos s.dataValue
  let nTot : Nat := aBytes.length + bBytes.length
  let rc := readChunk s.rd (cap2 - nTot)
  { s with buf := aBytes ++ bBytes ++ rc.1,
           bufCap := cap2,
           pos := nTot,
           dataName := relocRegion s.dataName 0,
           dataValue := relocRegion s.dataValue (aBytes.length : Int),
           err := rc.2.1,
           rd := rc.2.2 }

/-- The inner byte loop of `Scan`: feed `state(s, b)` each remaining
buffered byte, bumping the cursor, until the state machine yields a token
(`none`) or the buffer runs out. -/
def runBytes : Scanner → Tag → List Byte → Scanner × Option Tag
  | s, t, [] => (s, some t)
  | s, t, b :: rest =>
      match stepB s t b with
      | (s1, none) => ({ s1 with pos := s1.pos + 1 }, none)
      | (s1, some t1) => runBytes { s1 with pos := s1.pos + 1 } t1 rest

/-- The outer loop of `Scan`: consume buffered bytes; on exhaustion refill
(when no error is pending) and continue if the refill produced bytes;
otherwise a non-EOF error stops scanning, and at EOF a synthetic space is
fed once to flush a pending number, after which a missing `eofOK`
turns the EOF into `io.ErrUnexpectedEOF`. -/
def scanLoop : Nat → Scanner → Tag → Scanner × Bool
  | 0, s, _ => (s, false)
  | fuel + 1, s, t =>
      match runBytes s t (s.buf.drop s.pos) with
      | (s1, none) => (s1, decide (0 ≤ s1.kind))
      | (s1, some t1) =>
          let s2 := if s1.err = none then fill s1 else s1
          if s1.err = none ∧ s2.pos < s2.buf.length then scanLoop fuel s2 t1
          else if s2.err ≠ some JError.eof then (s2, false)
          else
            match stepB s2 t1 32 with
            | (s3, t3) =>
                let s4 : Scanner := { s3 with pos := s3.buf.length }
                if t3.isNone && decide (0 ≤ s4.kind) then (s4, true)
                else if s4.eofOK = false then
                  ({ s4 with err := some JError.unexpectedEOF }, false)
                else (s4, false)

/-- `(*Scanner).Scan`: reset the token kind and both region starts, then
drive the current top-of-stack state.  The fuel `rd.length + 2` covers the
at most `1 + number-of-chunks` iterations of the outer loop (a `continue`
requires a refill that consumed a chunk whole). -/
def scan (s : Scanner) : Scanner × Bool :=
  let s0 : Scanner :=
    { s with kind := -1,
             dataName := { s.dataName with pos := -1 },
             dataValue := { s.dataValue with pos := -1 } }
  match s0.states with
  | [] => (s0, false)
  | t :: _ => scanLoop (s0.rd.length + 2) s0 t

/-- `NewScanner`: empty buffer with capacity 1024, parse stack holding the
`stateStart` sentinel, all other fields at their Go zero values. -/
def newScanner (chunks : List (List Byte)) : Scanner :=
  { states := [.stateStart], pos := 0, buf := [], bufCap := 1024, kind := 0,
    eofOK := false, err := none, cook := false, isKey := false,
    boolValue := false, dataName := ⟨0, 0, false⟩, dataValue := ⟨0, 0, false⟩,
    multiDoc := false, rd := chunks }

/-- Modelled from the spec: `AllowMultple` (called by scan_test.go and
needed by decode.go but missing from the scanner source under src/)
enables multi-document mode. -/
def allowMultple (s : Scanner) : Scanner := { s with multiDoc := true }

/-- `(*Scanner).Err`: the sticky error, with `io.EOF` reported as `nil`. -/
def errQuery (s : Scanner) : Option JError :=
  if s.err = some JError.eof then none else s.err

/-- `unicode/utf16.IsSurrogate`. -/
def isSurrogate (c : Nat) : Bool :=
  decide (0xD800 ≤ c) && decide (c < 0xE000)

/-- `unicode/utf16.DecodeRune`: combine a surrogate pair, or yield U+FFFD. -/
def decodeRune16 (h l : Nat) : Nat :=
  if 0xD800 ≤ h ∧ h < 0xDC00 ∧ 0xDC00 ≤ l ∧ l < 0xE000 then
    0x10000 + (h - 0xD800) * 0x400 + (l - 0xDC00)
  else 0xFFFD

/-- `unicode/utf8.EncodeRune` (the code points reaching it here are
always ≥ 0, so `Nat` suffices; surrogates and out-of-range encode U+FFFD). -/
def encodeRune (c : Nat) : List Byte :=
  if c < 0x80 then [c]
  else if c < 0x800 then [0xC0 + c / 0x40, 0x80 + c % 0x40]
  else if (0xD800 ≤ c ∧ c < 0xE000) ∨ 0x10FFFF < c then [0xEF, 0xBF, 0xBD]
  else if c < 0x10000 then
    [0xE0 + c / 0x1000, 0x80 + (c / 0x40) % 0x40, 0x80 + c % 0x40]
  else
    [0xF0 + c / 0x40000, 0x80 + (c / 0x1000) % 0x40,
     0x80 + (c / 0x40) % 0x40, 0x80 + c % 0x40]

/-- `unicode/utf8.DecodeRune`: first rune and its byte size; any invalid,
surrogate, overlong or truncated encoding gives `(0xFFFD, 1)` (`(0xFFFD, 0)`
on empty input). -/
def decodeRuneGo (l : List Byte) : Nat × Nat :=
  match l with
  | [] => (0xFFFD, 0)
  | b0 :: rest =>
      if b0 < 0x80 then (b0, 1)
      else if 0xC2 ≤ b0 ∧ b0 ≤ 0xDF then
        match rest with
        | b1 :: _ =>
            if 0x80 ≤ b1 ∧ b1 ≤ 0xBF then ((b0 - 0xC0) * 0x40 + (b1 - 0x80), 2)
            else (0xFFFD, 1)
        | [] => (0xFFFD, 1)
      else if 0xE0 ≤ b0 ∧ b0 ≤ 0xEF then
        match rest with
        | b1 :: b2 :: _ =>
            let lo1 := if b0 = 0xE0 then 0xA0 else 0x80
            let hi1 := if b0 = 0xED then 0x9F else 0xBF
            if lo1 ≤ b1 ∧ b1 ≤ hi1 ∧ 0x80 ≤ b2 ∧ b2 ≤ 0xBF then
              ((b0 - 0xE0) * 0x1000 + (b1 - 0x80) * 0x40 + (b2 - 0x80), 3)
            else (0xFFFD, 1)
        | _ => (0xFFFD, 1)
      else if 0xF0 ≤ b0 ∧ b0 ≤ 0xF4 then
        match rest with
        | b1 :: b2 :: b3 :: _ =>
            let lo1 := if b0 = 0xF0 then 0x90 else 0x80
            let hi1 := if b0 = 0xF4 then 0x8F else 0xBF
            if lo1 ≤ b1 ∧ b1 ≤ hi1 ∧ 0x80 ≤ b2 ∧ b2 ≤ 0xBF ∧ 0x80 ≤ b3 ∧ b3 ≤ 0xBF then
              ((b0 - 0xF0) * 0x40000 + (b1 - 0x80) * 0x1000 +
                 (b2 - 0x80) * 0x40 + (b3 - 0x80), 4)
            else (0xFFFD, 1)
        | _ => (0xFFFD, 1)
      else (0xFFFD, 1)

/-- The mapping of the non-`u` escape letters inside `cookedData`'s switch
(`"` `\` `/` fall through unchanged, matching the empty Go cases). -/
def escChar (b : Byte) : Byte :=
  if b = 98 then 8
  else if b = 102 then 12
  else if b = 110 then 10
  else if b = 114 then 13
  else if b = 116 then 9
  else b

/-- The cooking loop of `(*Scanner).cookedData`, with the written bytes
accumulated in `acc` instead of being written over the read buffer.  In Go
the write cursor chases the read cursor over the same array, growing a
fresh output buffer exactly when an invalid raw sequence would make the
write overtake the read (`c == RuneError && n < 3 && ...`); that branch
changes only where the bytes live, never their values, so the accumulator
is byte-for-byte the Go result `wbuf[:w]`.  Each iteration advances `r` by
at least one, so fuel `|orig| + 1` never runs out. -/
def cookLoop (orig : List Byte) : Nat → Nat → List Byte → List Byte
  | 0, _, acc => acc
  | fuel + 1, r, acc =>
      if r < orig.length then
        let b := orig.getD r 0
        if b = 92 then
          let b1 := orig.getD (r + 1) 0
          if b1 = 117 then
            let c := parseHex (listSliceN orig (r + 2) (r + 6))
            if isSurrogate c then
              if r + 12 ≤ orig.length ∧ orig.getD (r + 6) 0 = 92 ∧
                  orig.getD (r + 7) 0 = 117 then
                let c2 := decodeRune16 c (parseHex (listSliceN orig (r + 8) (r + 12)))
                if c2 = 0xFFFD then cookLoop orig fuel (r + 6) (acc ++ encodeRune 0xFFFD)
                else cookLoop orig fuel (r + 12) (acc ++ encodeRune c2)
              else cookLoop orig fuel (r + 6) (acc ++ encodeRune 0xFFFD)
            else cookLoop orig fuel (r + 6) (acc ++ encodeRune c)
          else cookLoop orig fuel (r + 2) (acc ++ [escChar b1])
        else if b < 0x80 then cookLoop orig fuel (r + 1) (acc ++ [b])
        else
          let dn := decodeRuneGo (orig.drop r)
          cookLoop orig fuel (r + dn.2) (acc ++ encodeRune dn.1)
      else acc

/-- `(*Scanner).cookedData`: `nil` for a dead region, the raw slice
(zero-copy view) when cooking is not needed, otherwise the cooked bytes. -/
def cookedData (s : Scanner) (r : Region) : List Byte :=
  if r.pos < 0 then []
  else
    let rbuf := listSlice s.buf r.pos r.stop
    if r.cook = false then rbuf
    else cookLoop rbuf (rbuf.length + 1) 0 []

/-- `(*Scanner).Value`. -/
def value (s : Scanner) : List Byte := cookedData s s.dataValue

/-- `(*Scanner).Name`. -/
def name (s : Scanner) : List Byte := cookedData s s.dataName

/-- The loop of `(*Scanner).Skip`: `for len(s.states) > n && s.Scan() {}`.
Fuel: every `Scan` returning `true` consumes at least one input byte,
except possibly a final number flushed at EOF, so `skipFuel` below bounds
the iterations. -/
def skipLoop : Nat → Scanner → Nat → Scanner
  | 0, s, _ => s
  | fuel + 1, s, n =>
      if n < s.states.length then
        match scan s with
        | (s1, true) => skipLoop fuel s1 n
        | (s1, false) => s1
      else s

def skipFuel (s : Scanner) : Nat :=
  s.buf.length + (s.rd.map List.length).sum + s.states.length + 2

/-- `(*Scanner).Skip`: on an `Array`/`Object` token scan (discarding
tokens) until the stack drops below the container's level, i.e. until the
matching `End` has been consumed; a no-op for every other token kind. -/
def skip (s : Scanner) : Scanner :=
  let n := if s.kind = kObject ∨ s.kind = kArray then s.states.length - 1
           else s.states.length
  skipLoop (skipFuel s) s n

/-- The `Bool` branch of `DecodeValue` (decode.go): `s.Value()[0] == 't'`.
Indexing is modelled as `Option`: the Go expression panics exactly when
this is `none`. -/
def decodeBoolBranch (s : Scanner) : Option Bool :=
  (value s).get? 0 |>.map (fun b => b == 116)

def isNumTag : Tag → Bool
  | .stateNumberNeg | .stateNumberDigits | .stateNumberDotOrExp | .stateNumberFrac
  | .stateNumberFracDigits | .stateNumberExp | .stateNumberExpDigit
  | .stateNumberExpDigits => true
  | _ => false

def isStrTag : Tag → Bool
  | .stateString | .stateStringEscape | .stateStringUnicodeEscape1
  | .stateStringUnicodeEscape2 | .stateStringUnicodeEscape3
  | .stateStringUnicodeEscape4 => true
  | _ => false

/-- The invariant maintained while `Scan` hunts for one token: no token
kind has been recorded yet, and the value region start is still the `-1`
reset at the top of `Scan` unless the machine is inside a number or inside
a non-key string — the only constructs that ever set it. -/
def litInv (s : Scanner) (t : Tag) : Prop :=
  s.kind = -1 ∧ (s.dataValue.pos = -1 ∨ isNumTag t = true ∨
    (isStrTag t = true ∧ s.isKey = false))

/-- The property carried through one state step: a completed token of kind
Null/Bool has an untouched value region, and otherwise the invariant moves
to the successor state. -/
def stepOk (s : Scanner) (t : Tag) (b : Byte) : Prop :=
  match stepB s t b with
  | (s1, none) => (s1.kind = kNull ∨ s1.kind = kBool) → s1.dataValue.pos = -1
  | (s1, some t1) => litInv s1 t1

lemma notLit_neg1 : ¬((-1 : Int) = kNull ∨ (-1 : Int) = kBool) := by decide

lemma notLit_kString : ¬(kString = kNull ∨ kString = kBool) := by decide

lemma notLit_kNumber : ¬(kNumber = kNull ∨ kNumber = kBool) := by decide

lemma notLit_kArray : ¬(kArray = kNull ∨ kArray = kBool) := by decide

lemma notLit_kObject : ¬(kObject = kNull ∨ kObject = kBool) := by decide

lemma notLit_kEnd : ¬(kEnd = kNull ∨ kEnd = kBool) := by decide

/-- The reset performed at the top of `Scan` (token kind and both region
starts cleared). -/
def resetScan (s : Scanner) : Scanner :=
  { s with kind := -1, dataName := { s.dataName with pos := -1 },
           dataValue := { s.dataValue with pos := -1 } }

/-- A concrete scanner state for exercising the refill theorem: cursor at
the end of a 3-byte buffer, a closed name region `[0,1)` and an open value
region starting at 1, one unread chunk pending. -/
def fillWitnessScanner : Scanner :=
  { states := [.stateEnd], pos := 3, buf := [10, 20, 30], bufCap := 1024,
    kind := 2, eofOK := false, err := none, cook := false, isKey := false,
    boolValue := false, dataName := ⟨0, 1, false⟩, dataValue := ⟨1, -1, true⟩,
    multiDoc := false, rd := [[7, 8]] }

/-! ## Claim theorems -/

/-- C1: the spec (and the scanner's own doc comment) say the first recorded
error is sticky: every later `Scan` returns false with no token and `Err`
keeps returning that first error.  The code violates this: `Scan` never
checks `s.err` on entry, so with buffered bytes left after a syntax error a
later `Scan` keeps consuming them — on `[x,1]` it even returns `true` with
a Number token while the old error is still stored, and on `[x y]` it
overwrites the first error with a second one. -/
theorem c1_error_not_sticky :
    (let s0 := newScanner [[91, 120, 44, 49, 93]]
     let r1 := scan s0
     let r2 := scan r1.1
     let r3 := scan r2.1
     r1.2 = true ∧ r1.1.kind = kArray ∧
     r2.2 = false ∧ r2.1.err = some (.synErr 1 120 .expectValue) ∧
     r3.2 = true ∧ r3.1.kind = kNumber ∧ value r3.1 = [49] ∧
     r3.1.err = some (.synErr 1 120 .expectValue)) ∧
    (let t0 := newScanner [[91, 120, 32, 121, 93]]
     let q2 := scan (scan t0).1
     let q3 := scan q2.1
     q2.1.err = some (.synErr 1 120 .expectValue) ∧
     q3.2 = false ∧
     q3.1.err = some (.synErr 3 121 .expectArrayCommaOrClose)) := by
  decide

/-- C2: the claim (and scan_test.go line 251, and the spec) say the empty
input scans to a clean end of input with `Err() = nil`.  The code disagrees:
on empty input the synthetic space drives `stateStart → stateValue`, which
never sets `eofOK`, so `Scan` stores `io.ErrUnexpectedEOF` — the very same
error as for the lone unterminated quote, making the two cases
indistinguishable.  (The unterminated-`"` half of the claim does hold.) -/
theorem c2_empty_input_gets_unexpected_eof :
    (let rE := scan (newScanner [])
     rE.2 = false ∧ errQuery rE.1 = some JError.unexpectedEOF) ∧
    (let rQ := scan (newScanner [[34]])
     rQ.2 = false ∧ errQuery rQ.1 = some JError.unexpectedEOF) := by
  decide

/-- C3: tolerated malformed constructs each cook to exactly one U+FFFD
(bytes `EF BF BD`) with no error: the unpaired high surrogate `"\uD800"`
cooks to a single U+FFFD; `"\uD834x\uDD1E"` (pair broken by a byte)
cooks to U+FFFD, `x`, U+FFFD; an invalidly ordered pair `"\uDD1E\uD834"`
gives one U+FFFD per surrogate; a surrogate whose following escape is
malformed (`"\uD800\u0061"`) gives U+FFFD then `a`; and a raw malformed
UTF-8 byte (`"a\xD1b"`) gives `a`, U+FFFD, `b` with the neighbours
preserved.  All five scan successfully with no error recorded. -/
theorem c3_malformed_cooks_to_one_replacement :
    (let r := scan (newScanner [[34, 92, 117, 100, 56, 48, 48, 34]])
     r.2 = true ∧ r.1.kind = kString ∧ errQuery r.1 = none ∧
     value r.1 = [239, 191, 189]) ∧
    (let r := scan (newScanner [[34, 92, 117, 68, 56, 51, 52, 120,
                                 92, 117, 68, 68, 49, 69, 34]])
     r.2 = true ∧ r.1.kind = kString ∧ errQuery r.1 = none ∧
     value r.1 = [239, 191, 189, 120, 239, 191, 189]) ∧
    (let r := scan (newScanner [[34, 92, 117, 100, 100, 49, 101,
                                 92, 117, 100, 56, 51, 52, 34]])
     r.2 = true ∧ errQuery r.1 = none ∧
     value r.1 = [239, 191, 189, 239, 191, 189]) ∧
    (let r := scan (newScanner [[34, 92, 117, 100, 56, 48, 48,
                                 92, 117, 48, 48, 54, 49, 34]])
     r.2 = true ∧ errQuery r.1 = none ∧ value r.1 = [239, 191, 189, 97]) ∧
    (let r := scan (newScanner [[34, 97, 209, 98, 34]])
     r.2 = true ∧ r.1.kind = kString ∧ errQuery r.1 = none ∧
     value r.1 = [97, 239, 191, 189, 98]) := by
  decide

/-- C5: number tokens carry exactly the literal input text with no
normalization (`-0`, `0`, `1.0e+10`, `6E-06`), and since a number has no
terminator byte of its own the ending byte belongs to the next token: in
`[2009,-10]` the cursor after the `2009` token sits on the `,` (index 5)
and after `-10` on the `]` (index 9), which then delimit the next tokens. -/
theorem c5_number_literal_text_and_stepback :
    (let r := scan (newScanner [[45, 48]])
     r.2 = true ∧ r.1.kind = kNumber ∧ value r.1 = [45, 48]) ∧
    (let r := scan (newScanner [[48]])
     r.2 = true ∧ r.1.kind = kNumber ∧ value r.1 = [48]) ∧
    (let r := scan (newScanner [[49, 46, 48, 101, 43, 49, 48]])
     r.2 = true ∧ r.1.kind = kNumber ∧ value r.1 = [49, 46, 48, 101, 43, 49, 48]) ∧
    (let r := scan (newScanner [[54, 69, 45, 48, 54]])
     r.2 = true ∧ r.1.kind = kNumber ∧ value r.1 = [54, 69, 45, 48, 54]) ∧
    (let s0 := newScanner [[91, 50, 48, 48, 57, 44, 45, 49, 48, 93]]
     let r1 := scan s0
     let r2 := scan r1.1
     let r3 := scan r2.1
     let r4 := scan r3.1
     r1.1.kind = kArray ∧
     r2.2 = true ∧ r2.1.kind = kNumber ∧ value r2.1 = [50, 48, 48, 57] ∧
     r2.1.pos = 5 ∧
     r3.2 = true ∧ r3.1.kind = kNumber ∧ value r3.1 = [45, 49, 48] ∧
     r3.1.pos = 9 ∧
     r4.2 = true ∧ r4.1.kind = kEnd) := by
  decide

/-- C6: scanning `[01]` delivers the `0` as a complete Number token with
text `0`, and the following digit `1` (input index 2) raises a syntax
error naming byte `1` as unexpected where `,` or `]` was required; no
token with text `01` is ever produced. -/
theorem c6_leading_zero_then_digit_is_error :
    (let s0 := newScanner [[91, 48, 49, 93]]
     let r1 := scan s0
     let r2 := scan r1.1
     let r3 := scan r2.1
     r1.2 = true ∧ r1.1.kind = kArray ∧
     r2.2 = true ∧ r2.1.kind = kNumber ∧ value r2.1 = [48] ∧
     r3.2 = false ∧
     r3.1.err = some (.synErr 2 49 .expectArrayCommaOrClose) ∧
     errQuery r3.1 = some (.synErr 2 49 .expectArrayCommaOrClose)) := by
  decide

/-- C9: with multi-document mode (spec-modelled `AllowMultple`) the input
`{} {}` scans to Object, End, Object, End and then a clean end of input
with no error; without it the same input scans to Object, End and then a
syntax error on the trailing `{` (index 3), where only whitespace is
allowed. -/
theorem c9_multi_document_mode :
    (let s0 := allowMultple (newScanner [[123, 125, 32, 123, 125]])
     let r1 := scan s0
     let r2 := scan r1.1
     let r3 := scan r2.1
     let r4 := scan r3.1
     let r5 := scan r4.1
     r1.2 = true ∧ r1.1.kind = kObject ∧
     r2.2 = true ∧ r2.1.kind = kEnd ∧
     r3.2 = true ∧ r3.1.kind = kObject ∧
     r4.2 = true ∧ r4.1.kind = kEnd ∧
     r5.2 = false ∧ errQuery r5.1 = none) ∧
    (let s0 := newScanner [[123, 125, 32, 123, 125]]
     let r1 := scan s0
     let r2 := scan r1.1
     let r3 := scan r2.1
     r1.2 = true ∧ r1.1.kind = kObject ∧
     r2.2 = true ∧ r2.1.kind = kEnd ∧
     r3.2 = false ∧
     r3.1.err = some (.synErr 3 123 .expectWhitespace)) := by
  decide

/-- C4, counterexample: the claim says a string with no escapes whose
bytes are valid UTF-8 — "pure ASCII **or valid multi-byte sequences**" —
leaves the needs-cooking flag unset.  False: `stateString` sets `cook` for
every byte ≥ 0x80, so the escape-free, valid-UTF-8 string `"é"` (bytes
`C3 A9`) is scanned with its value region's cook flag set. -/
theorem c4_multibyte_sets_cook_flag :
    let r := scan (newScanner [[34, 195, 169, 34]])
    r.2 = true ∧ r.1.kind = kString ∧ r.1.dataValue.cook = true ∧
    value r.1 = [195, 169] := by
  decide

/-- The Skip loop exits immediately once the stack is not deeper than the
recorded level, whatever the fuel. -/
lemma skipLoop_of_le (f : Nat) (s : Scanner) (n : Nat)
    (h : s.states.length ≤ n) : skipLoop f s n = s := by
  cases f with
  | zero => rfl
  | succ f => simp [skipLoop, Nat.not_lt.2 h]

/-- C8: `Skip` with the current token an Array/Object start scans until
exactly the matching `End` has been consumed — on
`[[1,[2],{"a":null}],9]`, after scanning the outer and inner array starts
(stack depth 3), `Skip` consumes through the inner `End` (depth back to 2,
arbitrary nesting inside) and the next scan produces the sibling token
`9`; for any other current token kind `Skip` performs no scans and leaves
the scanner unchanged. -/
theorem c8_skip_to_matching_end :
    (∀ s : Scanner, s.kind ≠ kObject → s.kind ≠ kArray → skip s = s) ∧
    (let s0 := newScanner
        [[91, 91, 49, 44, 91, 50, 93, 44, 123, 34, 97, 34, 58,
          110, 117, 108, 108, 125, 93, 44, 57, 93]]
     let r1 := scan s0
     let r2 := scan r1.1
     let s3 := skip r2.1
     let r4 := scan s3
     r1.2 = true ∧ r1.1.kind = kArray ∧
     r2.2 = true ∧ r2.1.kind = kArray ∧ r2.1.states.length = 3 ∧
     s3.states.length = 2 ∧
     r4.2 = true ∧ r4.1.kind = kNumber ∧ value r4.1 = [57]) := by
  constructor
  · intro s h1 h2
    unfold skip
    rw [if_neg (by simp [h1, h2])]
    exact skipLoop_of_le _ _ _ le_rfl
  · decide

lemma length_listSlice (l : List Byte) (a b : Int)
    (h0 : 0 ≤ a) (hab : a ≤ b) (hb : b ≤ (l.length : Int)) :
    ((listSlice l a b).length : Int) = b - a := by
  simp [listSlice, List.length_take, List.length_drop]
  omega

lemma listSlice_append_left (X Y : List Byte) (b : Int)
    (h : (X.length : Int) = b) :
    listSlice (X ++ Y) 0 b = X := by
  simp [listSlice]
  exact List.take_left' (by omega)

lemma listSlice_append_right (X Y : List Byte) (a b : Int)
    (ha : (X.length : Int) = a) :
    listSlice (X ++ Y) a b = listSlice Y 0 (b - a) := by
  simp [listSlice]
  rw [List.drop_append_of_le_length (by omega), List.drop_of_length_le (by omega),
      List.nil_append]

lemma endOf_mk (p q : Int) (c : Bool) (cur : Nat) :
    endOf ⟨p, q, c⟩ cur = if q < 0 then (cur : Int) else q := rfl

/-- C7: refill preserves the pending regions.  Under the conditions that
hold whenever `fill` runs (cursor at the end of the buffer, live regions in
(name, value) order and within bounds), the relocated regions denote
byte-for-byte the same contents as before the refill, their rewritten
offsets lie within the new buffer, a live region stays live, and an open
region (end = -1) stays open. -/
theorem c7_fill_relocates_regions (s : Scanner)
    (hcur : s.pos = s.buf.length)
    (hname : 0 ≤ s.dataName.pos →
      s.dataName.pos ≤ endOf s.dataName s.pos ∧
      endOf s.dataName s.pos ≤ (s.buf.length : Int))
    (hvalue : 0 ≤ s.dataValue.pos →
      s.dataValue.pos ≤ endOf s.dataValue s.pos ∧
      endOf s.dataValue s.pos ≤ (s.buf.length : Int))
    (hord : 0 ≤ s.dataName.pos → 0 ≤ s.dataValue.pos →
      endOf s.dataName s.pos ≤ s.dataValue.pos) :
    ((0 ≤ s.dataName.pos ↔ 0 ≤ (fill s).dataName.pos) ∧
     (0 ≤ s.dataValue.pos ↔ 0 ≤ (fill s).dataValue.pos)) ∧
    (0 ≤ s.dataName.pos →
      regionBytes (fill s).buf (fill s).pos (fill s).dataName
        = regionBytes s.buf s.pos s.dataName ∧
      0 ≤ (fill s).dataName.pos ∧
      endOf (fill s).dataName (fill s).pos ≤ ((fill s).buf.length : Int) ∧
      (s.dataName.stop < 0 ↔ (fill s).dataName.stop < 0)) ∧
    (0 ≤ s.dataValue.pos →
      regionBytes (fill s).buf (fill s).pos (fill s).dataValue
        = regionBytes s.buf s.pos s.dataValue ∧
      0 ≤ (fill s).dataValue.pos ∧
      endOf (fill s).dataValue (fill s).pos ≤ ((fill s).buf.length : Int) ∧
      (s.dataValue.stop < 0 ↔ (fill s).dataValue.stop < 0)) := by
  obtain ⟨C, hbuf⟩ : ∃ C, (fill s).buf =
      regionBytes s.buf s.pos s.dataName ++
        (regionBytes s.buf s.pos s.dataValue ++ C) :=
    ⟨_, by rw [← List.append_assoc]; rfl⟩
  have hpos : (fill s).pos = (regionBytes s.buf s.pos s.dataName).length +
      (regionBytes s.buf s.pos s.dataValue).length := rfl
  have hdn : (fill s).dataName = relocRegion s.dataName 0 := rfl
  have hdv : (fill s).dataValue = relocRegion s.dataValue
      ((regionBytes s.buf s.pos s.dataName).length : Int) := rfl
  set A := regionBytes s.buf s.pos s.dataName with hA
  set B := regionBytes s.buf s.pos s.dataValue with hB
  have hAlen : 0 ≤ s.dataName.pos →
      (A.length : Int) = endOf s.dataName s.pos - s.dataName.pos := by
    intro hnl
    rw [hA]; unfold regionBytes; rw [if_pos hnl]
    exact length_listSlice _ _ _ hnl (hname hnl).1 (by have := (hname hnl).2; omega)
  have hBlen : 0 ≤ s.dataValue.pos →
      (B.length : Int) = endOf s.dataValue s.pos - s.dataValue.pos := by
    intro hvl
    rw [hB]; unfold regionBytes; rw [if_pos hvl]
    exact length_listSlice _ _ _ hvl (hvalue hvl).1 (by have := (hvalue hvl).2; omega)
  have hlenbuf : (fill s).buf.length = A.length + (B.length + C.length) := by
    rw [hbuf]; simp [List.length_append]
  refine ⟨⟨?_, ?_⟩, ?_, ?_⟩
  · rw [hdn]; unfold relocRegion
    by_cases h : 0 ≤ s.dataName.pos
    · rw [if_pos h]; simpa using h
    · rw [if_neg h]
  · rw [hdv]; unfold relocRegion
    by_cases h : 0 ≤ s.dataValue.pos
    · rw [if_pos h]
      simp only [true_iff, iff_true, h]
      positivity
    · rw [if_neg h]
  · intro hnl
    by_cases hso : s.dataName.stop < 0
    · -- open name region: value region is degenerate, relocated name stays open
      have hreg : (fill s).dataName = ⟨0, s.dataName.stop, s.dataName.cook⟩ := by
        rw [hdn]; unfold relocRegion; rw [if_pos hnl, if_pos hso]
      have hBnil : B = [] := by
        by_cases hvl : 0 ≤ s.dataValue.pos
        · have h1 := (hvalue hvl).1
          have h2 := (hvalue hvl).2
          have h3 := hord hnl hvl
          have he : endOf s.dataName s.pos = (s.pos : Int) := by
            unfold endOf; rw [if_pos hso]
          rw [hB]; unfold regionBytes; rw [if_pos hvl]
          unfold listSlice
          have hz : (endOf s.dataValue s.pos - s.dataValue.pos).toNat = 0 := by omega
          rw [hz, List.take_zero]
        · rw [hB]; unfold regionBytes; rw [if_neg hvl]
      refine ⟨?_, ?_, ?_, ?_⟩
      · rw [hreg]
        unfold regionBytes
        rw [if_pos (le_refl (0 : Int))]
        rw [hbuf, hpos, endOf_mk, if_pos hso, hBnil]
        simpa using listSlice_append_left A (([] : List Byte) ++ C) (A.length : Int) rfl
      · rw [hreg]
      · rw [hreg, endOf_mk, if_pos hso, hpos, hlenbuf]
        push_cast
        omega
      · rw [hreg]
    · -- closed name region
      have hreg : (fill s).dataName =
          ⟨0, 0 + (s.dataName.stop - s.dataName.pos), s.dataName.cook⟩ := by
        rw [hdn]; unfold relocRegion; rw [if_pos hnl, if_neg hso]
      have hstop : endOf s.dataName s.pos = s.dataName.stop := by
        unfold endOf; rw [if_neg hso]
      have hge : ¬(0 + (s.dataName.stop - s.dataName.pos) < 0) := by
        have := (hname hnl).1
        rw [hstop] at this
        omega
      refine ⟨?_, ?_, ?_, ?_⟩
      · rw [hreg]
        unfold regionBytes
        rw [if_pos (le_refl (0 : Int))]
        rw [hbuf, hpos, endOf_mk, if_neg hge]
        exact listSlice_append_left _ _ _ (by rw [hAlen hnl, hstop]; ring)
      · rw [hreg]
      · rw [hreg, endOf_mk, if_neg hge, hlenbuf]
        have h2 := (hname hnl).2
        rw [hstop] at h2
        have h3 := hAlen hnl
        rw [hstop] at h3
        push_cast
        omega
      · rw [hreg]
        constructor
        · intro h; exact absurd h hso
        · intro h; exact absurd (by simpa using h) hge
  · intro hvl
    by_cases hso : s.dataValue.stop < 0
    · -- open value region
      have hreg : (fill s).dataValue =
          ⟨(A.length : Int), s.dataValue.stop, s.dataValue.cook⟩ := by
        rw [hdv]; unfold relocRegion; rw [if_pos hvl, if_pos hso]
      refine ⟨?_, ?_, ?_, ?_⟩
      · rw [hreg]
        unfold regionBytes
        rw [if_pos (by positivity : (0 : Int) ≤ (A.length : Int))]
        rw [hbuf, hpos, endOf_mk, if_pos hso]
        rw [listSlice_append_right _ _ _ _ rfl]
        refine listSlice_append_left _ _ _ ?_
        push_cast
        ring
      · rw [hreg]; positivity
      · rw [hreg, endOf_mk, if_pos hso, hpos, hlenbuf]
        push_cast
        omega
      · rw [hreg]
    · -- closed value region
      have hstop : endOf s.dataValue s.pos = s.dataValue.stop := by
        unfold endOf; rw [if_neg hso]
      have hreg : (fill s).dataValue =
          ⟨(A.length : Int), (A.length : Int) + (s.dataValue.stop - s.dataValue.pos),
           s.dataValue.cook⟩ := by
        rw [hdv]; unfold relocRegion; rw [if_pos hvl, if_neg hso]
      have hge : ¬((A.length : Int) + (s.dataValue.stop - s.dataValue.pos) < 0) := by
        have := (hvalue hvl).1
        rw [hstop] at this
        have h0 : (0 : Int) ≤ (A.length : Int) := by positivity
        omega
      refine ⟨?_, ?_, ?_, ?_⟩
      · rw [hreg]
        unfold regionBytes
        rw [if_pos (by positivity : (0 : Int) ≤ (A.length : Int))]
        rw [hbuf, hpos, endOf_mk, if_neg hge]
        rw [listSlice_append_right _ _ _ _ rfl]
        refine listSlice_append_left _ _ _ ?_
        rw [hBlen hvl, hstop]
        ring
      · rw [hreg]; positivity
      · rw [hreg, endOf_mk, if_neg hge, hlenbuf]
        have h2 := (hvalue hvl).2
        rw [hstop] at h2
        have h3 := hBlen hvl
        rw [hstop] at h3
        push_cast
        omega
      · rw [hreg]
        constructor
        · intro h; exact absurd h hso
        · intro h; exact absurd (by simpa using h) hge

/-- C7 witness: the refill theorem applied to `fillWitnessScanner`, every
hypothesis discharged by evaluation. -/
theorem c7_fill_relocates_regions_witness :
    (fillWitnessScanner.pos = fillWitnessScanner.buf.length) ∧
    ((0 ≤ fillWitnessScanner.dataName.pos →
      fillWitnessScanner.dataName.pos ≤
        endOf fillWitnessScanner.dataName fillWitnessScanner.pos ∧
      endOf fillWitnessScanner.dataName fillWitnessScanner.pos ≤
        (fillWitnessScanner.buf.length : Int)) ∧
     (0 ≤ fillWitnessScanner.dataValue.pos →
      fillWitnessScanner.dataValue.pos ≤
        endOf fillWitnessScanner.dataValue fillWitnessScanner.pos ∧
      endOf fillWitnessScanner.dataValue fillWitnessScanner.pos ≤
        (fillWitnessScanner.buf.length : Int)) ∧
     (0 ≤ fillWitnessScanner.dataName.pos → 0 ≤ fillWitnessScanner.dataValue.pos →
      endOf fillWitnessScanner.dataName fillWitnessScanner.pos ≤
        fillWitnessScanner.dataValue.pos)) ∧
    (((0 ≤ fillWitnessScanner.dataName.pos ↔ 0 ≤ (fill fillWitnessScanner).dataName.pos) ∧
      (0 ≤ fillWitnessScanner.dataValue.pos ↔ 0 ≤ (fill fillWitnessScanner).dataValue.pos)) ∧
     (0 ≤ fillWitnessScanner.dataName.pos →
       regionBytes (fill fillWitnessScanner).buf (fill fillWitnessScanner).pos
           (fill fillWitnessScanner).dataName
         = regionBytes fillWitnessScanner.buf fillWitnessScanner.pos
             fillWitnessScanner.dataName ∧
       0 ≤ (fill fillWitnessScanner).dataName.pos ∧
       endOf (fill fillWitnessScanner).dataName (fill fillWitnessScanner).pos ≤
         ((fill fillWitnessScanner).buf.length : Int) ∧
       (fillWitnessScanner.dataName.stop < 0 ↔
         (fill fillWitnessScanner).dataName.stop < 0)) ∧
     (0 ≤ fillWitnessScanner.dataValue.pos →
       regionBytes (fill fillWitnessScanner).buf (fill fillWitnessScanner).pos
           (fill fillWitnessScanner).dataValue
         = regionBytes fillWitnessScanner.buf fillWitnessScanner.pos
             fillWitnessScanner.dataValue ∧
       0 ≤ (fill fillWitnessScanner).dataValue.pos ∧
       endOf (fill fillWitnessScanner).dataValue (fill fillWitnessScanner).pos ≤
         ((fill fillWitnessScanner).buf.length : Int) ∧
       (fillWitnessScanner.dataValue.stop < 0 ↔
         (fill fillWitnessScanner).dataValue.stop < 0))) :=
  ⟨by decide, ⟨by decide, by decide, by decide⟩,
   c7_fill_relocates_regions fillWitnessScanner (by decide) (by decide)
     (by decide) (by decide)⟩

lemma runBytes_ascii (content : List Byte) :
    ∀ (s : Scanner) (rest : List Byte),
      (∀ b ∈ content, 32 ≤ b ∧ b < 128 ∧ b ≠ 34 ∧ b ≠ 92) → s.isKey = false →
      runBytes s .stateString (content ++ 34 :: rest) =
        ({ s with pos := s.pos + content.length + 1,
                  dataValue := { s.dataValue with
                    stop := ((s.pos + content.length : Nat) : Int),
                    cook := s.cook },
                  kind := kString }, none) := by
  induction content with
  | nil =>
      intro s rest _ hkey
      simp [runBytes, stepB, stateString, hkey]
  | cons b bs ih =>
      intro s rest hall hkey
      obtain ⟨h1, h2, h3, h4⟩ := hall b (List.mem_cons_self _ _)
      have h5 : ¬b < 32 := Nat.not_lt.2 h1
      simp only [List.cons_append, runBytes, stepB, stateString,
        if_neg h3, if_neg h4, if_neg h5, if_pos h2, List.append_eq]
      rw [ih { s with pos := s.pos + 1 } rest
        (fun x hx => hall x (List.mem_cons_of_mem _ hx)) hkey]
      simp only [Prod.mk.injEq, Scanner.mk.injEq, Region.mk.injEq, List.length_cons,
        and_true, true_and]
      refine ⟨by omega, by push_cast; omega⟩

lemma scanLoop_token (fuel : Nat) (s s1 : Scanner) (t : Tag)
    (hrun : runBytes s t (s.buf.drop s.pos) = (s1, none)) :
    scanLoop (fuel + 1) s t = (s1, decide (0 ≤ s1.kind)) := by
  rw [scanLoop, hrun]

lemma scanLoop_continue (fuel : Nat) (s s1 : Scanner) (t t1 : Tag)
    (hrun : runBytes s t (s.buf.drop s.pos) = (s1, some t1))
    (herr : s1.err = none)
    (hlt : (fill s1).pos < (fill s1).buf.length) :
    scanLoop (fuel + 1) s t = scanLoop fuel (fill s1) t1 := by
  rw [scanLoop, hrun]
  simp only [herr, reduceIte, true_and]
  rw [if_pos hlt]

lemma readChunk_fits (c : List Byte) (space : Nat) (rest : List (List Byte))
    (h : c.length ≤ space) : readChunk (c :: rest) space = (c, none, rest) := by
  simp [readChunk, h]

/-- C4 (amended): a scanned top-level string with no escapes and only
ASCII bytes leaves the needs-cooking flag unset, and `Value` is then the
direct zero-copy view: the raw slice of the scanner buffer between the
region offsets, byte-for-byte the original input bytes.  (The length bound
keeps the document within the initial 1024-byte buffer so a single refill
suffices.) -/
theorem c4_ascii_string_zero_copy (content : List Byte)
    (hlen : content.length ≤ 1000)
    (hascii : ∀ b ∈ content, 32 ≤ b ∧ b < 128 ∧ b ≠ 34 ∧ b ≠ 92) :
    (scan (newScanner [34 :: (content ++ [34])])).2 = true ∧
    (scan (newScanner [34 :: (content ++ [34])])).1.kind = kString ∧
    (scan (newScanner [34 :: (content ++ [34])])).1.dataValue.cook = false ∧
    value (scan (newScanner [34 :: (content ++ [34])])).1 = content ∧
    value (scan (newScanner [34 :: (content ++ [34])])).1 =
      listSlice (scan (newScanner [34 :: (content ++ [34])])).1.buf
        (scan (newScanner [34 :: (content ++ [34])])).1.dataValue.pos
        (scan (newScanner [34 :: (content ++ [34])])).1.dataValue.stop := by
  have hfill : fill
      { states := [.stateStart], pos := 0, buf := [], bufCap := 1024, kind := -1,
        eofOK := false, err := none, cook := false, isKey := false,
        boolValue := false, dataName := ⟨-1, 0, false⟩,
        dataValue := ⟨-1, 0, false⟩, multiDoc := false,
        rd := [34 :: (content ++ [34])] } =
      { states := [.stateStart], pos := 0, buf := 34 :: (content ++ [34]),
        bufCap := 1024, kind := -1, eofOK := false, err := none, cook := false,
        isKey := false, boolValue := false, dataName := ⟨-1, 0, false⟩,
        dataValue := ⟨-1, 0, false⟩, multiDoc := false, rd := [] } := by
    simp only [fill, regionBytes, relocRegion, endOf]
    norm_num
    rw [readChunk_fits _ _ _ (by simp; omega)]
    exact ⟨rfl, rfl, rfl⟩
  have h2 : runBytes
      { states := [.stateStart], pos := 0, buf := 34 :: (content ++ [34]),
        bufCap := 1024, kind := -1, eofOK := false, err := none, cook := false,
        isKey := false, boolValue := false, dataName := ⟨-1, 0, false⟩,
        dataValue := ⟨-1, 0, false⟩, multiDoc := false, rd := [] } .stateStart
      (34 :: (content ++ [34])) =
      ({ states := [.stateEnd], pos := content.length + 2,
         buf := 34 :: (content ++ [34]), bufCap := 1024, kind := kString,
         eofOK := false, err := none, cook := false, isKey := false,
         boolValue := false, dataName := ⟨-1, 0, false⟩,
         dataValue := ⟨1, ((1 + content.length : Nat) : Int), false⟩,
         multiDoc := false, rd := [] }, none) := by
    have hq : runBytes
        { states := [.stateStart], pos := 0, buf := 34 :: (content ++ [34]),
          bufCap := 1024, kind := -1, eofOK := false, err := none, cook := false,
          isKey := false, boolValue := false, dataName := ⟨-1, 0, false⟩,
          dataValue := ⟨-1, 0, false⟩, multiDoc := false, rd := [] } .stateStart
        (34 :: (content ++ [34])) =
        runBytes
          { states := [.stateEnd], pos := 1, buf := 34 :: (content ++ [34]),
            bufCap := 1024, kind := -1, eofOK := false, err := none, cook := false,
            isKey := false, boolValue := false, dataName := ⟨-1, 0, false⟩,
            dataValue := ⟨1, -1, false⟩, multiDoc := false, rd := [] } .stateString
          (content ++ 34 :: []) := rfl
    rw [hq]
    rw [runBytes_ascii content
      { states := [.stateEnd], pos := 1, buf := 34 :: (content ++ [34]),
        bufCap := 1024, kind := -1, eofOK := false, err := none, cook := false,
        isKey := false, boolValue := false, dataName := ⟨-1, 0, false⟩,
        dataValue := ⟨1, -1, false⟩, multiDoc := false, rd := [] } []
      (fun x hx => hascii x hx) rfl]
    simp only [Prod.mk.injEq, Scanner.mk.injEq, Region.mk.injEq, and_true, true_and]
    omega
  have hmain : scan (newScanner [34 :: (content ++ [34])]) =
      ({ states := [.stateEnd], pos := content.length + 2,
         buf := 34 :: (content ++ [34]), bufCap := 1024, kind := kString,
         eofOK := false, err := none, cook := false, isKey := false,
         boolValue := false, dataName := ⟨-1, 0, false⟩,
         dataValue := ⟨1, ((1 + content.length : Nat) : Int), false⟩,
         multiDoc := false, rd := [] }, true) := by
    have h0 : scan (newScanner [34 :: (content ++ [34])]) =
        scanLoop (2 + 1)
          { states := [.stateStart], pos := 0, buf := [], bufCap := 1024, kind := -1,
            eofOK := false, err := none, cook := false, isKey := false,
            boolValue := false, dataName := ⟨-1, 0, false⟩,
            dataValue := ⟨-1, 0, false⟩, multiDoc := false,
            rd := [34 :: (content ++ [34])] } .stateStart := rfl
    rw [h0]
    rw [scanLoop_continue 2 _ _ _ _ rfl rfl (by rw [hfill]; simp)]
    rw [hfill]
    rw [show (2 : Nat) = 1 + 1 from rfl]
    rw [scanLoop_token 1 _ _ _ h2]
    simp [kString]
  rw [hmain]
  refine ⟨rfl, rfl, rfl, ?_, ?_⟩
  · show cookedData _ _ = content
    simp only [cookedData, listSlice]
    norm_num
  · rfl

/-- C4 witness: the amended zero-copy theorem applied to the concrete
two-byte ASCII string `hi`. -/
theorem c4_ascii_string_zero_copy_witness :
    (([104, 105] : List Byte).length ≤ 1000 ∧
     (∀ b ∈ ([104, 105] : List Byte), 32 ≤ b ∧ b < 128 ∧ b ≠ 34 ∧ b ≠ 92)) ∧
    ((scan (newScanner [34 :: (([104, 105] : List Byte) ++ [34])])).2 = true ∧
     (scan (newScanner [34 :: (([104, 105] : List Byte) ++ [34])])).1.kind = kString ∧
     (scan (newScanner [34 :: (([104, 105] : List Byte) ++ [34])])).1.dataValue.cook = false ∧
     value (scan (newScanner [34 :: (([104, 105] : List Byte) ++ [34])])).1 = [104, 105] ∧
     value (scan (newScanner [34 :: (([104, 105] : List Byte) ++ [34])])).1 =
       listSlice (scan (newScanner [34 :: (([104, 105] : List Byte) ++ [34])])).1.buf
         (scan (newScanner [34 :: (([104, 105] : List Byte) ++ [34])])).1.dataValue.pos
         (scan (newScanner [34 :: (([104, 105] : List Byte) ++ [34])])).1.dataValue.stop) :=
  ⟨⟨by decide, by decide⟩,
   c4_ascii_string_zero_copy [104, 105] (by decide) (by decide)⟩

/-- A single `stateValue` dispatch: the tokens it completes itself are
containers (kind 4/5), never Bool/Null, and every successor state satisfies
the invariant. -/
lemma stateValue_stepOk (s : Scanner) (b : Byte) (hk : s.kind = -1)
    (hd : s.dataValue.pos = -1) :
    (match stateValue s b with
     | (s1, none) => (s1.kind = kNull ∨ s1.kind = kBool) → s1.dataValue.pos = -1
     | (s1, some t1) => litInv s1 t1) := by
  unfold stateValue synError
  by_cases h1 : isWhiteSpace b = true
  · rw [if_pos h1]; exact ⟨hk, Or.inl hd⟩
  rw [if_neg h1]
  by_cases h2 : b = 34
  · rw [if_pos h2]; exact ⟨hk, Or.inr (Or.inr ⟨rfl, rfl⟩)⟩
  rw [if_neg h2]
  by_cases h3 : b = 45
  · rw [if_pos h3]; exact ⟨hk, Or.inr (Or.inl rfl)⟩
  rw [if_neg h3]
  by_cases h4 : b = 48
  · rw [if_pos h4]; exact ⟨hk, Or.inr (Or.inl rfl)⟩
  rw [if_neg h4]
  by_cases h5 : 49 ≤ b ∧ b ≤ 57
  · rw [if_pos h5]; exact ⟨hk, Or.inr (Or.inl rfl)⟩
  rw [if_neg h5]
  by_cases h6 : b = 116
  · rw [if_pos h6]; exact ⟨hk, Or.inl hd⟩
  rw [if_neg h6]
  by_cases h7 : b = 102
  · rw [if_pos h7]; exact ⟨hk, Or.inl hd⟩
  rw [if_neg h7]
  by_cases h8 : b = 110
  · rw [if_pos h8]; exact ⟨hk, Or.inl hd⟩
  rw [if_neg h8]
  by_cases h9 : b = 91
  · rw [if_pos h9]; exact fun h => absurd h notLit_kArray
  rw [if_neg h9]
  by_cases h10 : b = 123
  · rw [if_pos h10]; exact fun h => absurd h notLit_kObject
  rw [if_neg h10]
  exact fun h => absurd (hk ▸ h) notLit_neg1

/-- Transfer of the string disjunct of the invariant from one string-family
state to another (the value region and `isKey` are untouched). -/
lemma strTransfer {s : Scanner} (t t' : Tag) (hnum : isNumTag t = false)
    (hstr : isStrTag t' = true)
    (hd : s.dataValue.pos = -1 ∨ isNumTag t = true ∨
      (isStrTag t = true ∧ s.isKey = false)) :
    s.dataValue.pos = -1 ∨ isNumTag t' = true ∨
      (isStrTag t' = true ∧ s.isKey = false) := by
  rcases hd with h | h | ⟨_, hkey⟩
  · exact Or.inl h
  · rw [hnum] at h
    exact absurd h (by decide)
  · exact Or.inr (Or.inr ⟨hstr, hkey⟩)

set_option maxHeartbeats 2000000 in
/-- One step of the state machine: a completed Null/Bool token leaves the
value region untouched (`pos = -1`), and otherwise the invariant carries to
the successor state. -/
lemma stepB_stepOk (s : Scanner) (t : Tag) (b : Byte) (h : litInv s t) :
    stepOk s t b := by
  obtain ⟨hk, hd⟩ := h
  cases t
  case stateStart =>
    have hd0 : s.dataValue.pos = -1 := by
      rcases hd with h | h | ⟨h, _⟩
      exacts [h, absurd h (by decide), absurd h (by decide)]
    exact stateValue_stepOk _ b hk hd0
  case stateEnd =>
    have hd0 : s.dataValue.pos = -1 := by
      rcases hd with h | h | ⟨h, _⟩
      exacts [h, absurd h (by decide), absurd h (by decide)]
    unfold stepOk stepB stateEnd synError
    by_cases h1 : isWhiteSpace b = true
    · rw [if_pos h1]; exact ⟨hk, Or.inl hd0⟩
    rw [if_neg h1]
    by_cases h2 : s.multiDoc = true
    · rw [if_pos h2]; exact stateValue_stepOk s b hk hd0
    · rw [if_neg h2]; exact fun _ => hd0
  case stateValue =>
    have hd0 : s.dataValue.pos = -1 := by
      rcases hd with h | h | ⟨h, _⟩
      exacts [h, absurd h (by decide), absurd h (by decide)]
    exact stateValue_stepOk s b hk hd0
  case stateArrayElementOrClose =>
    have hd0 : s.dataValue.pos = -1 := by
      rcases hd with h | h | ⟨h, _⟩
      exacts [h, absurd h (by decide), absurd h (by decide)]
    unfold stepOk stepB stateArrayElementOrClose
    by_cases h1 : isWhiteSpace b = true
    · rw [if_pos h1]; exact ⟨hk, Or.inl hd0⟩
    rw [if_neg h1]
    by_cases h2 : b = 93
    · rw [if_pos h2]; exact fun h => absurd h notLit_kEnd
    · rw [if_neg h2]; exact stateValue_stepOk _ b hk hd0
  case stateArrayCommaOrClose =>
    have hd0 : s.dataValue.pos = -1 := by
      rcases hd with h | h | ⟨h, _⟩
      exacts [h, absurd h (by decide), absurd h (by decide)]
    unfold stepOk stepB stateArrayCommaOrClose synError
    by_cases h1 : isWhiteSpace b = true
    · rw [if_pos h1]; exact ⟨hk, Or.inl hd0⟩
    rw [if_neg h1]
    by_cases h2 : b = 44
    · rw [if_pos h2]; exact ⟨hk, Or.inl hd0⟩
    rw [if_neg h2]
    by_cases h3 : b = 93
    · rw [if_pos h3]; exact fun h => absurd h notLit_kEnd
    · rw [if_neg h3]; exact fun _ => hd0
  case stateObjectKeyOrClose =>
    have hd0 : s.dataValue.pos = -1 := by
      rcases hd with h | h | ⟨h, _⟩
      exacts [h, absurd h (by decide), absurd h (by decide)]
    unfold stepOk stepB stateObjectKeyOrClose synError
    by_cases h1 : isWhiteSpace b = true
    · rw [if_pos h1]; exact ⟨hk, Or.inl hd0⟩
    rw [if_neg h1]
    by_cases h2 : b = 125
    · rw [if_pos h2]; exact fun h => absurd h notLit_kEnd
    rw [if_neg h2]
    by_cases h3 : b = 34
    · rw [if_pos h3]; exact ⟨hk, Or.inl hd0⟩
    · rw [if_neg h3]; exact fun _ => hd0
  case stateObjectColon =>
    have hd0 : s.dataValue.pos = -1 := by
      rcases hd with h | h | ⟨h, _⟩
      exacts [h, absurd h (by decide), absurd h (by decide)]
    unfold stepOk stepB stateObjectColon synError
    by_cases h1 : isWhiteSpace b = true
    · rw [if_pos h1]; exact ⟨hk, Or.inl hd0⟩
    rw [if_neg h1]
    by_cases h2 : b = 58
    · rw [if_pos h2]; exact ⟨hk, Or.inl hd0⟩
    · rw [if_neg h2]; exact fun _ => hd0
  case stateObjectCommaOrClose =>
    have hd0 : s.dataValue.pos = -1 := by
      rcases hd with h | h | ⟨h, _⟩
      exacts [h, absurd h (by decide), absurd h (by decide)]
    unfold stepOk stepB stateObjectCommaOrClose synError
    by_cases h1 : isWhiteSpace b = true
    · rw [if_pos h1]; exact ⟨hk, Or.inl hd0⟩
    rw [if_neg h1]
    by_cases h2 : b = 44
    · rw [if_pos h2]; exact ⟨hk, Or.inl hd0⟩
    rw [if_neg h2]
    by_cases h3 : b = 125
    · rw [if_pos h3]; exact fun h => absurd h notLit_kEnd
    · rw [if_neg h3]; exact fun _ => hd0
  case stateObjectKey =>
    have hd0 : s.dataValue.pos = -1 := by
      rcases hd with h | h | ⟨h, _⟩
      exacts [h, absurd h (by decide), absurd h (by decide)]
    unfold stepOk stepB stateObjectKey synError
    by_cases h1 : isWhiteSpace b = true
    · rw [if_pos h1]; exact ⟨hk, Or.inl hd0⟩
    rw [if_neg h1]
    by_cases h2 : b = 34
    · rw [if_pos h2]; exact ⟨hk, Or.inl hd0⟩
    · rw [if_neg h2]; exact fun _ => hd0
  case stateNu =>
    have hd0 : s.dataValue.pos = -1 := by
      rcases hd with h | h | ⟨h, _⟩
      exacts [h, absurd h (by decide), absurd h (by decide)]
    unfold stepOk stepB stateNu synError
    by_cases h1 : b = 117
    · rw [if_pos h1]; exact ⟨hk, Or.inl hd0⟩
    · rw [if_neg h1]; exact fun _ => hd0
  case stateNul =>
    have hd0 : s.dataValue.pos = -1 := by
      rcases hd with h | h | ⟨h, _⟩
      exacts [h, absurd h (by decide), absurd h (by decide)]
    unfold stepOk stepB stateNul synError
    by_cases h1 : b = 108
    · rw [if_pos h1]; exact ⟨hk, Or.inl hd0⟩
    · rw [if_neg h1]; exact fun _ => hd0
  case stateNull =>
    have hd0 : s.dataValue.pos = -1 := by
      rcases hd with h | h | ⟨h, _⟩
      exacts [h, absurd h (by decide), absurd h (by decide)]
    unfold stepOk stepB stateNull synError
    by_cases h1 : b = 108
    · rw [if_pos h1]; exact fun _ => hd0
    · rw [if_neg h1]; exact fun _ => hd0
  case stateTr =>
    have hd0 : s.dataValue.pos = -1 := by
      rcases hd with h | h | ⟨h, _⟩
      exacts [h, absurd h (by decide), absurd h (by decide)]
    unfold stepOk stepB stateTr synError
    by_cases h1 : b = 114
    · rw [if_pos h1]; exact ⟨hk, Or.inl hd0⟩
    · rw [if_neg h1]; exact fun _ => hd0
  case stateTru =>
    have hd0 : s.dataValue.pos = -1 := by
      rcases hd with h | h | ⟨h, _⟩
      exacts [h, absurd h (by decide), absurd h (by decide)]
    unfold stepOk stepB stateTru synError
    by_cases h1 : b = 117
    · rw [if_pos h1]; exact ⟨hk, Or.inl hd0⟩
    · rw [if_neg h1]; exact fun _ => hd0
  case stateTrue =>
    have hd0 : s.dataValue.pos = -1 := by
      rcases hd with h | h | ⟨h, _⟩
      exacts [h, absurd h (by decide), absurd h (by decide)]
    unfold stepOk stepB stateTrue synError
    by_cases h1 : b = 101
    · rw [if_pos h1]; exact fun _ => hd0
    · rw [if_neg h1]; exact fun _ => hd0
  case stateFa =>
    have hd0 : s.dataValue.pos = -1 := by
      rcases hd with h | h | ⟨h, _⟩
      exacts [h, absurd h (by decide), absurd h (by decide)]
    unfold stepOk stepB stateFa synError
    by_cases h1 : b = 97
    · rw [if_pos h1]; exact ⟨hk, Or.inl hd0⟩
    · rw [if_neg h1]; exact fun _ => hd0
  case stateFal =>
    have hd0 : s.dataValue.pos = -1 := by
      rcases hd with h | h | ⟨h, _⟩
      exacts [h, absurd h (by decide), absurd h (by decide)]
    unfold stepOk stepB stateFal synError
    by_cases h1 : b = 108
    · rw [if_pos h1]; exact ⟨hk, Or.inl hd0⟩
    · rw [if_neg h1]; exact fun _ => hd0
  case stateFals =>
    have hd0 : s.dataValue.pos = -1 := by
      rcases hd with h | h | ⟨h, _⟩
      exacts [h, absurd h (by decide), absurd h (by decide)]
    unfold stepOk stepB stateFals synError
    by_cases h1 : b = 115
    · rw [if_pos h1]; exact ⟨hk, Or.inl hd0⟩
    · rw [if_neg h1]; exact fun _ => hd0
  case stateFalse =>
    have hd0 : s.dataValue.pos = -1 := by
      rcases hd with h | h | ⟨h, _⟩
      exacts [h, absurd h (by decide), absurd h (by decide)]
    unfold stepOk stepB stateFalse synError
    by_cases h1 : b = 101
    · rw [if_pos h1]; exact fun _ => hd0
    · rw [if_neg h1]; exact fun _ => hd0
  case stateString =>
    unfold stepOk stepB stateString synError
    by_cases h1 : b = 34
    · rw [if_pos h1]
      by_cases h2 : s.isKey = true
      · rw [if_pos h2]
        have hd0 : s.dataValue.pos = -1 := by
          rcases hd with h | h | ⟨_, hkey⟩
          · exact h
          · exact absurd h (by decide)
          · rw [h2] at hkey
            exact absurd hkey (by decide)
        exact ⟨hk, Or.inl hd0⟩
      · rw [if_neg h2]; exact fun h => absurd h notLit_kString
    rw [if_neg h1]
    by_cases h3 : b = 92
    · rw [if_pos h3]
      exact ⟨hk, strTransfer Tag.stateString Tag.stateStringEscape rfl rfl hd⟩
    rw [if_neg h3]
    by_cases h4 : b < 32
    · rw [if_pos h4]; exact fun h => absurd (hk ▸ h) notLit_neg1
    rw [if_neg h4]
    by_cases h5 : b < 128
    · rw [if_pos h5]
      exact ⟨hk, strTransfer Tag.stateString Tag.stateString rfl rfl hd⟩
    · rw [if_neg h5]
      exact ⟨hk, strTransfer Tag.stateString Tag.stateString rfl rfl hd⟩
  case stateStringEscape =>
    unfold stepOk stepB stateStringEscape synError
    by_cases h1 : b = 34 ∨ b = 92 ∨ b = 98 ∨ b = 102 ∨ b = 110 ∨ b = 114 ∨
        b = 116 ∨ b = 47
    · rw [if_pos h1]
      exact ⟨hk, strTransfer Tag.stateStringEscape Tag.stateString rfl rfl hd⟩
    rw [if_neg h1]
    by_cases h2 : b = 117
    · rw [if_pos h2]
      exact ⟨hk, strTransfer Tag.stateStringEscape Tag.stateStringUnicodeEscape1 rfl rfl hd⟩
    · rw [if_neg h2]; exact fun h => absurd (hk ▸ h) notLit_neg1
  case stateStringUnicodeEscape1 =>
    unfold stepOk stepB stateStringUnicodeEscape1 synError
    by_cases h1 : isHexDigit b = true
    · rw [if_pos h1]
      exact ⟨hk, strTransfer Tag.stateStringUnicodeEscape1 Tag.stateStringUnicodeEscape2 rfl rfl hd⟩
    · rw [if_neg h1]; exact fun h => absurd (hk ▸ h) notLit_neg1
  case stateStringUnicodeEscape2 =>
    unfold stepOk stepB stateStringUnicodeEscape2 synError
    by_cases h1 : isHexDigit b = true
    · rw [if_pos h1]
      exact ⟨hk, strTransfer Tag.stateStringUnicodeEscape2 Tag.stateStringUnicodeEscape3 rfl rfl hd⟩
    · rw [if_neg h1]; exact fun h => absurd (hk ▸ h) notLit_neg1
  case stateStringUnicodeEscape3 =>
    unfold stepOk stepB stateStringUnicodeEscape3 synError
    by_cases h1 : isHexDigit b = true
    · rw [if_pos h1]
      exact ⟨hk, strTransfer Tag.stateStringUnicodeEscape3 Tag.stateStringUnicodeEscape4 rfl rfl hd⟩
    · rw [if_neg h1]; exact fun h => absurd (hk ▸ h) notLit_neg1
  case stateStringUnicodeEscape4 =>
    unfold stepOk stepB stateStringUnicodeEscape4 synError
    by_cases h1 : isHexDigit b = true
    · rw [if_pos h1]
      exact ⟨hk, strTransfer Tag.stateStringUnicodeEscape4 Tag.stateString rfl rfl hd⟩
    · rw [if_neg h1]; exact fun h => absurd (hk ▸ h) notLit_neg1
  case stateNumberNeg =>
    unfold stepOk stepB stateNumberNeg synError
    by_cases h1 : b = 48
    · rw [if_pos h1]; exact ⟨hk, Or.inr (Or.inl rfl)⟩
    rw [if_neg h1]
    by_cases h2 : 49 ≤ b ∧ b ≤ 57
    · rw [if_pos h2]; exact ⟨hk, Or.inr (Or.inl rfl)⟩
    · rw [if_neg h2]; exact fun h => absurd (hk ▸ h) notLit_neg1
  case stateNumberDigits =>
    unfold stepOk stepB stateNumberDigits stateNumberDotOrExp finishNumber
    by_cases h1 : isDecimalDigit b = true
    · rw [if_pos h1]; exact ⟨hk, Or.inr (Or.inl rfl)⟩
    rw [if_neg h1]
    by_cases h2 : b = 46
    · rw [if_pos h2]; exact ⟨hk, Or.inr (Or.inl rfl)⟩
    rw [if_neg h2]
    by_cases h3 : b = 101 ∨ b = 69
    · rw [if_pos h3]; exact ⟨hk, Or.inr (Or.inl rfl)⟩
    · rw [if_neg h3]; exact fun h => absurd h notLit_kNumber
  case stateNumberDotOrExp =>
    unfold stepOk stepB stateNumberDotOrExp finishNumber
    by_cases h1 : b = 46
    · rw [if_pos h1]; exact ⟨hk, Or.inr (Or.inl rfl)⟩
    rw [if_neg h1]
    by_cases h2 : b = 101 ∨ b = 69
    · rw [if_pos h2]; exact ⟨hk, Or.inr (Or.inl rfl)⟩
    · rw [if_neg h2]; exact fun h => absurd h notLit_kNumber
  case stateNumberFrac =>
    unfold stepOk stepB stateNumberFrac synError
    by_cases h1 : isDecimalDigit b = true
    · rw [if_pos h1]; exact ⟨hk, Or.inr (Or.inl rfl)⟩
    · rw [if_neg h1]; exact fun h => absurd (hk ▸ h) notLit_neg1
  case stateNumberFracDigits =>
    unfold stepOk stepB stateNumberFracDigits finishNumber
    by_cases h1 : isDecimalDigit b = true
    · rw [if_pos h1]; exact ⟨hk, Or.inr (Or.inl rfl)⟩
    rw [if_neg h1]
    by_cases h2 : b = 101 ∨ b = 69
    · rw [if_pos h2]; exact ⟨hk, Or.inr (Or.inl rfl)⟩
    · rw [if_neg h2]; exact fun h => absurd h notLit_kNumber
  case stateNumberExp =>
    unfold stepOk stepB stateNumberExp synError
    by_cases h1 : b = 43 ∨ b = 45
    · rw [if_pos h1]; exact ⟨hk, Or.inr (Or.inl rfl)⟩
    rw [if_neg h1]
    by_cases h2 : isDecimalDigit b = true
    · rw [if_pos h2]; exact ⟨hk, Or.inr (Or.inl rfl)⟩
    · rw [if_neg h2]; exact fun h => absurd (hk ▸ h) notLit_neg1
  case stateNumberExpDigit =>
    unfold stepOk stepB stateNumberExpDigit synError
    by_cases h1 : isDecimalDigit b = true
    · rw [if_pos h1]; exact ⟨hk, Or.inr (Or.inl rfl)⟩
    · rw [if_neg h1]; exact fun h => absurd (hk ▸ h) notLit_neg1
  case stateNumberExpDigits =>
    unfold stepOk stepB stateNumberExpDigits finishNumber
    by_cases h1 : isDecimalDigit b = true
    · rw [if_pos h1]; exact ⟨hk, Or.inr (Or.inl rfl)⟩
    · rw [if_neg h1]; exact fun h => absurd h notLit_kNumber

lemma snd_false_ne_true {x y : Scanner} (h : ((x, false) : Scanner × Bool) = (y, true)) :
    False := by
  have h2 := congrArg Prod.snd h
  simp at h2

lemma runBytes_stepOk : ∀ (l : List Byte) (s : Scanner) (t : Tag), litInv s t →
    (match runBytes s t l with
     | (s1, none) => (s1.kind = kNull ∨ s1.kind = kBool) → s1.dataValue.pos = -1
     | (s1, some t1) => litInv s1 t1) := by
  intro l
  induction l with
  | nil =>
      intro s t h
      exact h
  | cons b rest ih =>
      intro s t h
      have hs := stepB_stepOk s t b h
      unfold stepOk at hs
      rw [runBytes]
      rcases hq : stepB s t b with ⟨s1, t1?⟩
      rw [hq] at hs
      cases t1? with
      | none => exact hs
      | some t1 => exact ih { s1 with pos := s1.pos + 1 } t1 hs

lemma fill_litInv (s : Scanner) (t : Tag) (h : litInv s t) : litInv (fill s) t := by
  obtain ⟨hk, hd⟩ := h
  refine ⟨hk, ?_⟩
  rcases hd with hd | hd | hd
  · left
    show (relocRegion s.dataValue _).pos = -1
    unfold relocRegion
    rw [if_neg (by omega)]
    exact hd
  · exact Or.inr (Or.inl hd)
  · exact Or.inr (Or.inr hd)

lemma scanLoop_stepOk : ∀ (fuel : Nat) (s : Scanner) (t : Tag), litInv s t →
    ∀ s1, scanLoop fuel s t = (s1, true) →
    (s1.kind = kNull ∨ s1.kind = kBool) → s1.dataValue.pos = -1 := by
  intro fuel
  induction fuel with
  | zero =>
      intro s t _ s1 he _
      exact (snd_false_ne_true he).elim
  | succ fuel ih =>
      intro s t h s1 he hkind
      have hr := runBytes_stepOk (s.buf.drop s.pos) s t h
      rw [scanLoop] at he
      rcases hq : runBytes s t (s.buf.drop s.pos) with ⟨sa, ta?⟩
      rw [hq] at he hr
      cases ta? with
      | none =>
          have h1 : sa = s1 := congrArg Prod.fst he
          subst h1
          exact hr hkind
      | some ta =>
          simp only [] at he
          have h2inv : litInv (if sa.err = none then fill sa else sa) ta := by
            split_ifs with hcond
            exacts [fill_litInv _ _ hr, hr]
          by_cases hc : sa.err = none ∧
              (if sa.err = none then fill sa else sa).pos <
                (if sa.err = none then fill sa else sa).buf.length
          · rw [if_pos hc] at he
            exact ih _ ta h2inv s1 he hkind
          · rw [if_neg hc] at he
            by_cases hc2 : (if sa.err = none then fill sa else sa).err ≠ some JError.eof
            · rw [if_pos hc2] at he
              exact (snd_false_ne_true he).elim
            · rw [if_neg hc2] at he
              have hs3 := stepB_stepOk (if sa.err = none then fill sa else sa) ta 32 h2inv
              unfold stepOk at hs3
              rcases hq3 : stepB (if sa.err = none then fill sa else sa) ta 32 with ⟨s3, t3?⟩
              rw [hq3] at he hs3
              cases t3? with
              | none =>
                  simp only [Option.isNone_none, Bool.true_and] at he
                  by_cases hk3 :
                      decide (0 ≤ ({ s3 with pos := s3.buf.length } : Scanner).kind) = true
                  · rw [if_pos hk3] at he
                    have h1 : ({ s3 with pos := s3.buf.length } : Scanner) = s1 :=
                      congrArg Prod.fst he
                    subst h1
                    exact hs3 hkind
                  · rw [if_neg hk3] at he
                    by_cases he4 : ({ s3 with pos := s3.buf.length } : Scanner).eofOK = false
                    · rw [if_pos he4] at he
                      exact (snd_false_ne_true he).elim
                    · rw [if_neg he4] at he
                      exact (snd_false_ne_true he).elim
              | some t3 =>
                  simp only [Option.isNone_some, Bool.false_and] at he
                  rw [if_neg (by decide)] at he
                  by_cases he4 : ({ s3 with pos := s3.buf.length } : Scanner).eofOK = false
                  · rw [if_pos he4] at he
                    exact (snd_false_ne_true he).elim
                  · rw [if_neg he4] at he
                    exact (snd_false_ne_true he).elim

/-- C10: for every scanner state (hence every input and any number of
preceding scans), if `Scan` returns true with a Null or Bool token then the
value region was never set — `Value()` is the empty (nil) slice — and the
`Bool` branch of `DecodeValue`, which reads `s.Value()[0]`, therefore
indexes position 0 of an empty slice (an out-of-bounds access, `none`
here, a panic in Go). -/
theorem c10_literal_tokens_have_empty_value (s : Scanner)
    (hok : (scan s).2 = true)
    (hkind : (scan s).1.kind = kNull ∨ (scan s).1.kind = kBool) :
    value (scan s).1 = [] ∧ decodeBoolBranch (scan s).1 = none := by
  have hpos : (scan s).1.dataValue.pos = -1 := by
    rcases hst : s.states with _ | ⟨t, ts⟩
    · exfalso
      have hscan : scan s = (resetScan s, false) := by
        simp only [scan, resetScan, hst]
      rw [hscan] at hok
      simp at hok
    · have hscan : scan s = scanLoop (s.rd.length + 2) (resetScan s) t := by
        simp only [scan, resetScan, hst]
      have hinv : litInv (resetScan s) t := ⟨rfl, Or.inl rfl⟩
      have heq : scanLoop (s.rd.length + 2) (resetScan s) t = ((scan s).1, true) := by
        rw [← hscan, ← hok]
      exact scanLoop_stepOk _ _ _ hinv (scan s).1 heq hkind
  have hval : value (scan s).1 = [] := by
    unfold value cookedData
    rw [if_pos (show (scan s).1.dataValue.pos < 0 by rw [hpos]; norm_num)]
  refine ⟨hval, ?_⟩
  unfold decodeBoolBranch
  rw [hval]
  rfl

/-- C10 witness: scanning the document `true` yields a Bool token whose
value is the empty slice and on which the `DecodeValue` bool-branch access
is out of bounds. -/
theorem c10_literal_tokens_have_empty_value_witness :
    ((scan (newScanner [[116, 114, 117, 101]])).2 = true ∧
     ((scan (newScanner [[116, 114, 117, 101]])).1.kind = kNull ∨
      (scan (newScanner [[116, 114, 117, 101]])).1.kind = kBool)) ∧
    (value (scan (newScanner [[116, 114, 117, 101]])).1 = [] ∧
     decodeBoolBranch (scan (newScanner [[116, 114, 117, 101]])).1 = none) :=
  ⟨⟨by decide, by decide⟩,
   c10_literal_tokens_have_empty_value (newScanner [[116, 114, 117, 101]])
     (by decide) (by decide)⟩

end GoJson
